import Mathlib

/-!
Go_p2p_chat: session establishment and duplex messaging.

A shallow embedding of `libp2p chat/main.go`.

* Strings are Go byte strings, embedded as `List Char`; the delimiter `'\n'` is `nl`.
* `bufio.Reader.ReadString('\n')` over a finite content followed by end-of-file is `readString`.
* The two messaging loops `readData` and `writeData` are embedded as one loop iteration on an
  explicit `Session` state (`readDataIter`, `writeDataIter`) and a fuelled loop around it.
* The calls into go-libp2p and go-multiaddr are parameters, gathered in `Lib`.
-/

namespace P2PChat

/-! ## Data model -/

/-- A Go string: a sequence of bytes. -/
abbrev Bytes := List Char

/-- The delimiter byte `'\n'`. -/
def nl : Char := Char.ofNat 10

/-- A Go `error` value. -/
inductive GoError where
  /-- The value `io.EOF`. -/
  | eof
  /-- Any other error value, as produced by the operating system or a library. -/
  | other (code : Nat)
deriving DecidableEq, Repr

/-- What one call of `ReadString` returns: the data and the error (`none` is `nil`). -/
structure ReadResult where
  str : Bytes
  err : Option GoError
deriving DecidableEq, Repr

/-- One write to standard output. `prompt` is `fmt.Print("> ")` of `writeData`; `message str` is
`fmt.Printf("\x1b[32m%s\x1b[0m> ", str)` of `readData`. -/
inductive ConsoleEvent where
  | prompt
  | message (str : Bytes)
deriving DecidableEq, Repr

/-- The bytes `"\x1b[32m"`: green console colour. -/
def green : Bytes := [Char.ofNat 27, '[', '3', '2', 'm']

/-- The bytes `"\x1b[0m> "`: reset console colour, then the prompt. -/
def resetPrompt : Bytes := [Char.ofNat 27, '[', '0', 'm', '>', ' ']

/-- The bytes a console event puts on standard output. -/
def ConsoleEvent.render : ConsoleEvent → Bytes
  | .prompt => ['>', ' ']
  | .message str => green ++ str ++ resetPrompt

/-- The state of one chat session: the stream wrapped by `rw`, the console, and for each of the
two goroutines whether it has returned. -/
structure Session where
  /-- Bytes the remote peer has sent and `rw.Reader` has not consumed; after them the stream
  is at end-of-file. -/
  netIn : Bytes
  /-- Bytes flushed to the stream by `rw.Writer`. The code drops the errors of `WriteString`
  and `Flush`; the stream is taken to accept every write. -/
  netOut : Bytes
  /-- Bytes buffered in `rw.Writer` and not flushed. -/
  wbuf : Bytes
  /-- What the coming calls of `stdReader.ReadString` return, in order; once the list is used
  up the console is at end-of-file. -/
  stdin : List ReadResult
  /-- The writes to standard output so far. -/
  stdout : List ConsoleEvent
  /-- The errors logged so far with `log.Println(err)`. -/
  log : List GoError
  /-- `readData` has returned. -/
  readDone : Bool
  /-- `writeData` has returned. -/
  writeDone : Bool
deriving DecidableEq, Repr

/-! ## `bufio.Reader.ReadString` -/

/-- `ReadString('\n')` on a reader holding `s` followed by end-of-file: the data up to and
including the first delimiter, the unread rest, and the error. When the content ends before a
delimiter the data read so far is returned with `io.EOF`. -/
def readString : Bytes → ReadResult × Bytes
  | [] => (⟨[], some .eof⟩, [])
  | c :: cs =>
    if c = nl then (⟨[c], none⟩, cs)
    else ((⟨c :: (readString cs).1.str, (readString cs).1.err⟩ : ReadResult), (readString cs).2)

/-- `stdReader.ReadString('\n')` on the console: the next scripted result, or `io.EOF` with no
data once the script is used up. -/
def consoleRead : List ReadResult → ReadResult × List ReadResult
  | [] => (⟨[], some .eof⟩, [])
  | r :: rs => (r, rs)

/-! ## The Inbound loop `readData` -/

/-- One iteration of the `for` loop of `readData`. -/
def readDataIter (s : Session) : Session :=
  if s.readDone then s
  else
    -- str, _ := rw.ReadString('\n')
    let r := readString s.netIn
    let s1 := { s with netIn := r.2 }
    if r.1.str = [] then
      { s1 with readDone := true }
    else if r.1.str ≠ [nl] then
      { s1 with stdout := s1.stdout ++ [ConsoleEvent.message r.1.str] }
    else s1

/-- The loop of `readData`, at most `fuel` iterations; `none` when the fuel runs out before the
function returns. -/
def readData : Nat → Session → Option Session
  | 0, _ => none
  | fuel + 1, s =>
    if (readDataIter s).readDone then some (readDataIter s) else readData fuel (readDataIter s)

/-! ## The Outbound loop `writeData` -/

/-- One iteration of the `for` loop of `writeData`. -/
def writeDataIter (s : Session) : Session :=
  if s.writeDone then s
  else
    -- fmt.Print("> ")
    let s1 := { s with stdout := s.stdout ++ [ConsoleEvent.prompt] }
    -- sendData, err := stdReader.ReadString('\n')
    let r := consoleRead s1.stdin
    let s2 := { s1 with stdin := r.2 }
    match r.1.err with
    | some e => { s2 with log := s2.log ++ [e], writeDone := true }
    | none =>
      -- rw.WriteString(fmt.Sprintf("%s\n", sendData))
      let s3 := { s2 with wbuf := s2.wbuf ++ (r.1.str ++ [nl]) }
      -- rw.Flush()
      { s3 with netOut := s3.netOut ++ s3.wbuf, wbuf := [] }

/-- The loop of `writeData`, at most `fuel` iterations; `none` when the fuel runs out before the
function returns. -/
def writeData : Nat → Session → Option Session
  | 0, _ => none
  | fuel + 1, s =>
    if (writeDataIter s).writeDone then some (writeDataIter s)
    else writeData fuel (writeDataIter s)

/-- A fresh session: `rw` wraps a stream on which the peer sends `inbound`, the console will
return `console`, and both goroutines are running. -/
def Session.fresh (inbound : Bytes) (console : List ReadResult) : Session :=
  { netIn := inbound, netOut := [], wbuf := [], stdin := console, stdout := [], log := [],
    readDone := false, writeDone := false }

/-- The messages `readData` has put on the console, in order. -/
def displayed (s : Session) : List Bytes :=
  s.stdout.filterMap fun e => match e with
    | .message str => some str
    | .prompt => none

/-- The strings returned by the successive calls of `ReadString` on a reader holding `s`, up to
the first empty one, at most `fuel` of them. -/
def reads : Nat → Bytes → List Bytes
  | 0, _ => []
  | fuel + 1, s =>
    if (readString s).1.str = [] then [] else (readString s).1.str :: reads fuel (readString s).2

/-- The Messages of a stream content: the strings `ReadString` returns on it. -/
def messages (s : Bytes) : List Bytes := reads s.length s

/-- A console line: a text without embedded newline, followed by its newline. -/
def IsLine (l : Bytes) : Prop := ∃ t : Bytes, nl ∉ t ∧ l = t ++ [nl]

/-- The stream content `s` with every bare-newline Message removed. -/
def dropBare (s : Bytes) : Bytes :=
  ((messages s).filter (fun m => decide (m ≠ [nl]))).flatten

/-- The lines the console returns without error before its first read error. -/
def linesRead : List ReadResult → List Bytes
  | [] => []
  | r :: rs =>
    match r.err with
    | none => r.str :: linesRead rs
    | some _ => []

/-- The first read error of the console; `io.EOF` when the script is used up before one. -/
def firstError : List ReadResult → GoError
  | [] => GoError.eof
  | r :: rs =>
    match r.err with
    | none => firstError rs
    | some e => e

/-- The console results that come after the first failing read. -/
def afterError : List ReadResult → List ReadResult
  | [] => []
  | r :: rs =>
    match r.err with
    | none => afterError rs
    | some _ => rs

/-- The bytes `writeData` puts on the stream for the lines `ls`. -/
def framed (ls : List Bytes) : Bytes := (ls.map fun l => l ++ [nl]).flatten

/-- The displayed messages when `writeData` sends the console lines `ls` (the console is
closed after them) and the peer's `readData` reads exactly the bytes so put on the stream.
`inboundA` is what the sender receives meanwhile and `consoleB` the receiver's own console. -/
def delivered (ls : List Bytes) (inboundA : Bytes) (consoleB : List ReadResult) :
    Option (List Bytes) :=
  match writeData (ls.length + 1) (Session.fresh inboundA (ls.map fun l => ⟨l, none⟩)) with
  | none => none
  | some a =>
    match readData (a.netOut.length + 1) (Session.fresh a.netOut consoleB) with
    | none => none
    | some b => some (displayed b)

/-! ## The two goroutines of a session

`go writeData(rw)` and `go readData(rw)` run concurrently. An execution is an interleaving of
loop iterations, given by a schedule. -/

/-- The two loops of a session. -/
inductive Loop where
  | inbound
  | outbound
deriving DecidableEq, Repr

/-- One iteration of the scheduled loop. -/
def sessionStep : Loop → Session → Session
  | .inbound => readDataIter
  | .outbound => writeDataIter

/-- The session after the iterations of a schedule. -/
def runSchedule : List Loop → Session → Session
  | [], s => s
  | l :: ls, s => runSchedule ls (sessionStep l s)

/-- The part of the session state the Inbound loop works on: the unread stream, whether
`readData` has returned, and the messages displayed. -/
def inboundView (s : Session) : Bytes × Bool × List Bytes := (s.netIn, s.readDone, displayed s)

/-- The part of the session state the Outbound loop works on: the console input, the bytes sent,
the write buffer, the log, and whether `writeData` has returned. -/
def outboundView (s : Session) : List ReadResult × Bytes × Bytes × List GoError × Bool :=
  (s.stdin, s.netOut, s.wbuf, s.log, s.writeDone)


/-! ## Session establishment

The functions of go-libp2p, go-libp2p-core and go-multiaddr that `main.go` calls are not part of
the repository; they are taken as parameters. `A` is `multiaddr.Multiaddr`, `I` is `peer.ID`,
`S` is `network.Stream` and `K` is `crypto.PrivKey`. -/

/-- The protocol code `multiaddr.P_TCP`. -/
def P_TCP : Nat := 6

/-- The protocol identifier of the chat stream. -/
def chatProtocol : String := "/chat/1.0.0"

/-- The retention hints of `peerstore`. -/
inductive TTL where
  | permanentAddrTTL
  | connectedAddrTTL
  | recentlyConnectedAddrTTL
  | tempAddrTTL
deriving DecidableEq, Repr

/-- The value `peer.AddrInfo`. -/
structure AddrInfo (A I : Type) where
  id : I
  addrs : List A
deriving DecidableEq, Repr

/-- One call `Peerstore().AddAddrs(id, addrs, ttl)`. -/
structure Registration (A I : Type) where
  id : I
  addrs : List A
  ttl : TTL
deriving DecidableEq, Repr

/-- The randomness source `r` of `main`. -/
inductive Rand where
  /-- The source `mrand.New(mrand.NewSource(int64(port)))` of the debug mode. -/
  | seeded (port : Int)
  /-- The source `rand.Reader`. -/
  | secure
deriving DecidableEq, Repr

/-- The host `h` as far as `main.go` reads and changes it. -/
structure Host (A I : Type) where
  /-- The value `h.ID()`. -/
  id : I
  /-- The value `h.Addrs()`. -/
  addrs : List A
  /-- The value `h.Network().ListenAddresses()`. -/
  listenAddrs : List A
  /-- The address book: the calls of `h.Peerstore().AddAddrs`, in order. -/
  peerstore : List (Registration A I)
  /-- The protocols for which `handleStream` has been set with `h.SetStreamHandler`. -/
  handlers : List String
  /-- The calls of `h.NewStream`, in order: the peer and the protocol asked for. -/
  dials : List (I × String)
deriving DecidableEq, Repr

/-- The library calls of `main.go`. A Go pair `(value, error)` returned by a library is an
`Except`. -/
structure Lib (A I S K : Type) where
  /-- The call `crypto.GenerateKeyPairWithReader(crypto.RSA, 2048, randomness)`. -/
  generateKeyPair : Rand → Except GoError K
  /-- The call `libp2p.New(libp2p.ListenAddrs(sourceMultiAddr), libp2p.Identity(prvKey))`;
  the address is `none` when `sourceMultiAddr` is `nil`. -/
  new : Option A → K → Except GoError (Host A I)
  /-- The call `multiaddr.NewMultiaddr(text)`. -/
  newMultiaddr : String → Except GoError A
  /-- The call `la.ValueForProtocol(code)`. -/
  valueForProtocol : A → Nat → Except GoError String
  /-- The call `peer.AddrInfoFromP2pAddr(maddr)`. -/
  addrInfoFromP2pAddr : A → Except GoError (AddrInfo A I)
  /-- The outcome of `h.NewStream(context.Background(), id, protocol)` on the host as it is
  when the call is made. -/
  newStream : Host A I → I → String → Except GoError S

/-- A line written with the `log` package. -/
inductive LogLine (A I : Type) where
  /-- The call `log.Println(err)`. -/
  | error (e : GoError)
  /-- The line "Yeni bir akış var!" of `handleStream`. -/
  | newStreamNotice
  /-- The line "port yerel bağlantı noktasını bulamadı" of `startPeer`. -/
  | noListenPort
  /-- The line "Run './main -d /ip4/127.0.0.1/tcp/%v/p2p/%s' ..." with the port and
  `h.ID().Pretty()`. -/
  | runInstructions (port : String) (id : I)
  /-- The line "127.0.0.1'i genel IP ile de değiştirebilirsiniz." -/
  | publicAddressHint
  /-- The line "Gelen bağlantı bekleniyor". -/
  | waiting
  /-- The call `log.Println()`. -/
  | blank
  /-- The line "Bu düğümün çoklu adresleri:". -/
  | ownAddrsHeader
  /-- The line `log.Printf(" - %v\n", la)`. -/
  | ownAddr (la : A)
  /-- The line "Established connection to destination". -/
  | established
deriving DecidableEq, Repr

section Setup

variable {A I S K : Type}

/-- The text `fmt.Sprintf("/ip4/0.0.0.0/tcp/%d", port)`. -/
def listenText (port : Int) : String := "/ip4/0.0.0.0/tcp/" ++ toString port

/-- The function `makeHost`: the lines it logs and the pair it returns. -/
def makeHost (lib : Lib A I S K) (port : Int) (randomness : Rand) :
    List (LogLine A I) × Except GoError (Host A I) :=
  match lib.generateKeyPair randomness with
  | .error err => ([LogLine.error err], .error err)
  | .ok prvKey =>
    -- sourceMultiAddr, _ := multiaddr.NewMultiaddr(...)
    let sourceMultiAddr := (lib.newMultiaddr (listenText port)).toOption
    ([], lib.new sourceMultiAddr prvKey)

/-- The `for` loop of `startPeer` over the listen addresses: the value of `port` after it. -/
def findPort (lib : Lib A I S K) : List A → String
  | [] => ""
  | la :: rest =>
    match lib.valueForProtocol la P_TCP with
    | .ok p => p
    | .error _ => findPort lib rest

/-- The function `startPeer`: the host after it and the lines it logs. -/
def startPeer (lib : Lib A I S K) (h : Host A I) : Host A I × List (LogLine A I) :=
  -- h.SetStreamHandler("/chat/1.0.0", streamHandler)
  let h1 := { h with handlers := h.handlers ++ [chatProtocol] }
  let port := findPort lib h1.listenAddrs
  if port = "" then
    (h1, [LogLine.noListenPort])
  else
    (h1, [LogLine.runInstructions port h1.id, LogLine.publicAddressHint, LogLine.waiting,
      LogLine.blank])

/-- What `startPeerAndConnect` leaves behind: the host after it, the lines it logs, and the
pair it returns (`none` is `nil`). The stream wrapper `rw` is given by the stream it wraps. -/
structure Connect (A I S : Type) where
  host : Host A I
  log : List (LogLine A I)
  rw : Option S
  err : Option GoError

/-- The function `startPeerAndConnect`. -/
def startPeerAndConnect (lib : Lib A I S K) (h : Host A I) (destination : String) :
    Connect A I S :=
  let log0 : List (LogLine A I) :=
    [LogLine.ownAddrsHeader] ++ h.addrs.map LogLine.ownAddr ++ [LogLine.blank]
  match lib.newMultiaddr destination with
  | .error err => { host := h, log := log0 ++ [LogLine.error err], rw := none, err := some err }
  | .ok maddr =>
    match lib.addrInfoFromP2pAddr maddr with
    | .error err =>
      { host := h, log := log0 ++ [LogLine.error err], rw := none, err := some err }
    | .ok info =>
      -- h.Peerstore().AddAddrs(info.ID, info.Addrs, peerstore.PermanentAddrTTL)
      let h1 := { h with
        peerstore := h.peerstore ++ [⟨info.id, info.addrs, TTL.permanentAddrTTL⟩] }
      -- s, err := h.NewStream(context.Background(), info.ID, "/chat/1.0.0")
      let h2 := { h1 with dials := h1.dials ++ [(info.id, chatProtocol)] }
      match lib.newStream h1 info.id chatProtocol with
      | .error err =>
        { host := h2, log := log0 ++ [LogLine.error err], rw := none, err := some err }
      | .ok s => { host := h2, log := log0 ++ [LogLine.established], rw := some s, err := none }

/-- The three ways `startPeerAndConnect` can fail with `err` on host `h`: the parse, the
extraction of the peer identifier, or the dial on the host with the registration added. -/
def ConnectFails (lib : Lib A I S K) (h : Host A I) (destination : String) (err : GoError) :
    Prop :=
  lib.newMultiaddr destination = .error err
  ∨ (∃ maddr, lib.newMultiaddr destination = .ok maddr
      ∧ lib.addrInfoFromP2pAddr maddr = .error err)
  ∨ (∃ maddr info, lib.newMultiaddr destination = .ok maddr
      ∧ lib.addrInfoFromP2pAddr maddr = .ok info
      ∧ lib.newStream { h with
          peerstore := h.peerstore ++ [⟨info.id, info.addrs, TTL.permanentAddrTTL⟩] }
          info.id chatProtocol = .error err)

/-- The command-line flags `-sp`, `-d`, `-help`, `-debug`. -/
structure Flags where
  sourcePort : Int
  dest : String
  help : Bool
  debug : Bool
deriving DecidableEq, Repr

/-- How `main` ends: `os.Exit(0)`, a `return`, or the `select {}` that waits forever. -/
inductive Ending where
  | exit0
  | returned
  | waitForever
deriving DecidableEq, Repr

/-- A run of `main`: how it ends, the lines logged, the host if one was made, and the messaging
goroutines `main` started, each with the stream wrapper it was given. -/
structure Run (A I S : Type) where
  ending : Ending
  log : List (LogLine A I)
  host : Option (Host A I)
  loops : List (Loop × Option S)

/-- The function `main`, after `flag.Parse()`. -/
def main (lib : Lib A I S K) (flags : Flags) : Run A I S :=
  if flags.help then
    { ending := Ending.exit0, log := [], host := none, loops := [] }
  else
    let r := if flags.debug then Rand.seeded flags.sourcePort else Rand.secure
    match makeHost lib flags.sourcePort r with
    | (log0, .error err) =>
      { ending := Ending.returned, log := log0 ++ [LogLine.error err], host := none, loops := [] }
    | (log0, .ok h) =>
      if flags.dest = "" then
        let p := startPeer lib h
        { ending := Ending.waitForever, log := log0 ++ p.2, host := some p.1, loops := [] }
      else
        let c := startPeerAndConnect lib h flags.dest
        match c.err with
        | some err =>
          { ending := Ending.returned, log := log0 ++ c.log ++ [LogLine.error err],
            host := some c.host, loops := [] }
        | none =>
          -- go writeData(rw); go readData(rw)
          { ending := Ending.waitForever, log := log0 ++ c.log, host := some c.host,
            loops := [(Loop.outbound, c.rw), (Loop.inbound, c.rw)] }

/-- The function `handleStream`, called by the host for an inbound stream `s`: the line it logs
and the goroutines it starts. -/
def handleStream (s : S) : List (LogLine A I) × List (Loop × Option S) :=
  ([LogLine.newStreamNotice], [(Loop.inbound, some s), (Loop.outbound, some s)])

end Setup

/-! ## A small instance of the library, for concrete runs -/

/-- Addresses of the instance: the list of (protocol code, value) components. -/
abbrev DemoAddr := List (Nat × String)

/-- An instance of `Lib`. Key generation fails with `keyErr` if given, the host listens on
`listen`, and a dial fails with `dialErr` if given. Three destination texts are known: one with
a peer identifier, one without, and everything else does not parse. -/
def demoLib (keyErr : Option GoError) (listen : List DemoAddr) (dialErr : Option GoError) :
    Lib DemoAddr Nat Nat Nat where
  generateKeyPair := fun _ =>
    match keyErr with
    | some e => .error e
    | none => .ok 1
  new := fun _ _ =>
    .ok { id := 7, addrs := listen, listenAddrs := listen, peerstore := [], handlers := [],
          dials := [] }
  newMultiaddr := fun text =>
    if text = "/ip4/127.0.0.1/tcp/9001/p2p/42" then
      .ok [(4, "127.0.0.1"), (6, "9001"), (421, "42")]
    else if text = "/ip4/127.0.0.1/tcp/9001" then .ok [(4, "127.0.0.1"), (6, "9001")]
    else .error (GoError.other 2)
  valueForProtocol := fun la code =>
    match la.find? fun c => c.1 == code with
    | some c => .ok c.2
    | none => .error (GoError.other 3)
  addrInfoFromP2pAddr := fun la =>
    match la.find? fun c => c.1 == 421 with
    | some _ => .ok { id := 42, addrs := [la.filter fun c => c.1 != 421] }
    | none => .error (GoError.other 4)
  newStream := fun h id _ =>
    match dialErr with
    | some e => .error e
    | none => if h.peerstore.any (fun r => r.id == id) then .ok 5 else .error (GoError.other 5)

/-- The host the instance makes. -/
def demoHost (listen : List DemoAddr) : Host DemoAddr Nat :=
  { id := 7, addrs := listen, listenAddrs := listen, peerstore := [], handlers := [],
    dials := [] }


/-! ## Facts about `readString` -/

theorem readString_append (s : Bytes) : (readString s).1.str ++ (readString s).2 = s := by
  induction s with
  | nil => rfl
  | cons c cs ih =>
    by_cases h : c = nl
    · simp [readString, h]
    · simp [readString, h, ih]

theorem readString_str_eq_nil (s : Bytes) : (readString s).1.str = [] ↔ s = [] := by
  cases s with
  | nil => simp [readString]
  | cons c cs =>
    by_cases h : c = nl
    · simp [readString, h]
    · simp [readString, h]

theorem readString_rest_length (s : Bytes) (h : s ≠ []) :
    (readString s).2.length < s.length := by
  have h1 := congrArg List.length (readString_append s)
  have h2 : (readString s).1.str ≠ [] := fun e => h ((readString_str_eq_nil s).1 e)
  have h3 := List.length_pos.2 h2
  simp only [List.length_append] at h1
  omega

theorem readString_line (t r : Bytes) (h : nl ∉ t) :
    readString (t ++ nl :: r) = (⟨t ++ [nl], none⟩, r) := by
  induction t with
  | nil => simp [readString]
  | cons c cs ih =>
    have hc : c ≠ nl := fun e => h (by simp [e])
    have hcs : nl ∉ cs := fun e => h (by simp [e])
    simp [readString, hc, ih hcs]

theorem readString_noDelim (t : Bytes) (h : nl ∉ t) :
    readString t = (⟨t, some GoError.eof⟩, []) := by
  induction t with
  | nil => rfl
  | cons c cs ih =>
    have hc : c ≠ nl := fun e => h (by simp [e])
    have hcs : nl ∉ cs := fun e => h (by simp [e])
    simp [readString, hc, ih hcs]

/-- Every content is either a delimiter-free remainder or starts with a line. -/
theorem bytes_split (s : Bytes) : nl ∉ s ∨ ∃ t r, nl ∉ t ∧ s = t ++ nl :: r := by
  induction s with
  | nil => left; simp
  | cons c cs ih =>
    by_cases hc : c = nl
    · right; exact ⟨[], cs, by simp, by simp [hc]⟩
    · rcases ih with h | ⟨t, r, ht, hs⟩
      · left
        intro hm
        rcases List.mem_cons.1 hm with e | e
        · exact hc e.symm
        · exact h e
      · right
        refine ⟨c :: t, r, ?_, by simp [hs]⟩
        intro hm
        rcases List.mem_cons.1 hm with e | e
        · exact hc e.symm
        · exact ht e

/-! ## Facts about `reads` and `messages` -/

theorem reads_fuel (n m : Nat) (s : Bytes) (hn : s.length ≤ n) (hm : s.length ≤ m) :
    reads n s = reads m s := by
  induction n generalizing m s with
  | zero =>
    have hs : s = [] := List.length_eq_zero.1 (by omega)
    subst hs
    cases m <;> simp [reads, readString]
  | succ n ih =>
    cases m with
    | zero =>
      have hs : s = [] := List.length_eq_zero.1 (by omega)
      subst hs
      simp [reads, readString]
    | succ m =>
      by_cases hs : s = []
      · subst hs; simp [reads, readString]
      · have hlt := readString_rest_length s hs
        have hne : (readString s).1.str ≠ [] := fun e => hs ((readString_str_eq_nil s).1 e)
        simp only [reads, hne, if_false]
        rw [ih m (readString s).2 (by omega) (by omega)]

theorem messages_nil : messages [] = [] := rfl

theorem messages_cons (s : Bytes) (hs : s ≠ []) :
    messages s = (readString s).1.str :: messages (readString s).2 := by
  have hlt := readString_rest_length s hs
  have hne : (readString s).1.str ≠ [] := fun e => hs ((readString_str_eq_nil s).1 e)
  unfold messages
  obtain ⟨k, hk⟩ : ∃ k, s.length = k + 1 := ⟨s.length - 1, by
    have := List.length_pos.2 hs
    omega⟩
  rw [hk]
  simp only [reads, hne, if_false]
  rw [reads_fuel k (readString s).2.length (readString s).2 (by omega) (le_refl _)]

theorem messages_line (t r : Bytes) (h : nl ∉ t) :
    messages (t ++ nl :: r) = (t ++ [nl]) :: messages r := by
  rw [messages_cons _ (by simp), readString_line t r h]

theorem messages_noDelim (t : Bytes) (h : nl ∉ t) (hne : t ≠ []) : messages t = [t] := by
  rw [messages_cons _ hne, readString_noDelim t h, messages_nil]

/-! ## Facts about the Inbound loop -/

theorem readDataIter_done (s : Session) (h : s.readDone = true) : readDataIter s = s := by
  simp [readDataIter, h]

theorem readDataIter_eof (s : Session) (hd : s.readDone = false) (hs : s.netIn = []) :
    readDataIter s = { s with readDone := true } := by
  obtain ⟨netIn, netOut, wbuf, stdin, stdout, log, readDone, writeDone⟩ := s
  simp only at hd hs
  subst hd hs
  simp [readDataIter, readString]

theorem readDataIter_bare (s : Session) (hd : s.readDone = false)
    (hb : (readString s.netIn).1.str = [nl]) :
    readDataIter s = { s with netIn := (readString s.netIn).2 } := by
  simp [readDataIter, hd, hb]

theorem readDataIter_message (s : Session) (hd : s.readDone = false)
    (hne : (readString s.netIn).1.str ≠ []) (hb : (readString s.netIn).1.str ≠ [nl]) :
    readDataIter s = { s with
      netIn := (readString s.netIn).2,
      stdout := s.stdout ++ [ConsoleEvent.message (readString s.netIn).1.str] } := by
  simp [readDataIter, hd, hb, hne]

/-- With more fuel than stream bytes `readData` returns, having consumed the stream and
displayed every Message that is not a bare newline. -/
theorem readData_eq (fuel : Nat) (s : Session) (hd : s.readDone = false)
    (hf : s.netIn.length < fuel) :
    readData fuel s = some { s with
      netIn := [], readDone := true,
      stdout := s.stdout ++
        ((messages s.netIn).filter (fun m => decide (m ≠ [nl]))).map ConsoleEvent.message } := by
  induction fuel generalizing s with
  | zero => omega
  | succ n ih =>
    by_cases hs : s.netIn = []
    · rw [readData, readDataIter_eof s hd hs]
      simp [hs, messages_nil]
    · have hne : (readString s.netIn).1.str ≠ [] :=
        fun e => hs ((readString_str_eq_nil _).1 e)
      have hlt := readString_rest_length _ hs
      by_cases hb : (readString s.netIn).1.str = [nl]
      · rw [readData, readDataIter_bare s hd hb]
        simp only [hd]
        rw [ih _ rfl (by simp only; omega), messages_cons _ hs, hb]
        simp
      · rw [readData, readDataIter_message s hd hne hb]
        simp only [hd]
        rw [ih _ rfl (by simp only; omega), messages_cons _ hs]
        simp [hb]

theorem displayed_append_messages (out : List ConsoleEvent) (ms : List Bytes) :
    List.filterMap (fun e => match e with
      | ConsoleEvent.message str => some str
      | ConsoleEvent.prompt => none) (out ++ ms.map ConsoleEvent.message)
    = List.filterMap (fun e => match e with
      | ConsoleEvent.message str => some str
      | ConsoleEvent.prompt => none) out ++ ms := by
  induction ms generalizing out with
  | nil => simp
  | cons m ms ih =>
    have := ih (out ++ [ConsoleEvent.message m])
    simp only [List.map_cons, List.append_assoc, List.singleton_append] at this ⊢
    rw [this]
    simp [List.filterMap_append]

/-! ## Framing -/

theorem bytes_induction {P : Bytes → Prop} (hrem : ∀ t, nl ∉ t → P t)
    (hline : ∀ t r, nl ∉ t → P r → P (t ++ nl :: r)) (s : Bytes) : P s := by
  suffices h : ∀ (n : Nat) (s : Bytes), s.length = n → P s from h _ s rfl
  intro n
  induction n using Nat.strong_induction_on with
  | _ n ih =>
    intro s hn
    rcases bytes_split s with h | ⟨t, r, ht, hs⟩
    · exact hrem s h
    · subst hs
      exact hline t r ht (ih r.length (by simp at hn; omega) r rfl)

theorem messages_flatten (s : Bytes) : (messages s).flatten = s := by
  induction s using bytes_induction with
  | hrem t ht =>
    by_cases h : t = []
    · subst h; rfl
    · rw [messages_noDelim t ht h]; simp
  | hline t r ht ih =>
    rw [messages_line t r ht]
    simp [ih]

theorem messages_framed (s : Bytes) :
    ∀ m ∈ messages s, IsLine m ∨ (nl ∉ m ∧ m ≠ [] ∧ (messages s).getLast? = some m) := by
  induction s using bytes_induction with
  | hrem t ht =>
    by_cases h : t = []
    · subst h; simp [messages_nil]
    · rw [messages_noDelim t ht h]
      intro m hm
      rw [List.mem_singleton] at hm
      subst hm
      exact Or.inr ⟨ht, h, rfl⟩
  | hline t r ht ih =>
    rw [messages_line t r ht]
    intro m hm
    rcases List.mem_cons.1 hm with e | e
    · exact Or.inl ⟨t, ht, e⟩
    · rcases ih m e with h | ⟨h1, h2, h3⟩
      · exact Or.inl h
      · refine Or.inr ⟨h1, h2, ?_⟩
        cases hr : messages r with
        | nil => rw [hr] at e; cases e
        | cons a l => rw [hr] at h3; rw [List.getLast?_cons_cons]; exact h3

theorem messages_dropBare (s : Bytes) :
    messages (dropBare s) = (messages s).filter (fun m => decide (m ≠ [nl])) := by
  induction s using bytes_induction with
  | hrem t ht =>
    by_cases h : t = []
    · subst h; rfl
    · have hb : t ≠ [nl] := fun e => ht (by simp [e])
      simp [dropBare, messages_noDelim t ht h, hb]
  | hline t r ht ih =>
    by_cases h : t = []
    · subst h
      have hm : messages (nl :: r) = [nl] :: messages r := messages_line [] r ht
      have : dropBare ([] ++ nl :: r) = dropBare r := by
        simp [dropBare, hm]
      rw [this, ih, List.nil_append, hm]
      simp
    · have hb : t ++ [nl] ≠ [nl] := by
        intro e
        have h1 : (t ++ [nl]).length = 1 := by rw [e]; rfl
        have h2 := List.length_pos.2 h
        simp only [List.length_append, List.length_singleton] at h1
        omega
      have : dropBare (t ++ nl :: r) = t ++ nl :: dropBare r := by
        simp [dropBare, messages_line t r ht, hb]
      rw [this, messages_line t _ ht, ih, messages_line t r ht]
      simp [hb]

theorem messages_framed_lines (ls : List Bytes) (h : ∀ l ∈ ls, IsLine l) :
    messages (framed ls) = (ls.map fun l => [l, [nl]]).flatten := by
  induction ls with
  | nil => rfl
  | cons l ls ih =>
    obtain ⟨t, ht, rfl⟩ := h l (by simp)
    have e : framed ((t ++ [nl]) :: ls) = t ++ nl :: ([] ++ nl :: framed ls) := by
      simp [framed]
    rw [e, messages_line t _ ht, messages_line [] _ (by simp), ih fun l hl => h l (by simp [hl])]
    simp

/-! ## Facts about the Outbound loop -/

theorem writeDataIter_done (s : Session) (h : s.writeDone = true) : writeDataIter s = s := by
  simp [writeDataIter, h]

theorem writeDataIter_ok (s : Session) (hd : s.writeDone = false) (l : Bytes)
    (rest : List ReadResult) (hs : s.stdin = ⟨l, none⟩ :: rest) :
    writeDataIter s = { s with
      stdout := s.stdout ++ [ConsoleEvent.prompt], stdin := rest,
      netOut := s.netOut ++ (s.wbuf ++ (l ++ [nl])), wbuf := [] } := by
  simp [writeDataIter, hd, hs, consoleRead]

theorem writeDataIter_err (s : Session) (hd : s.writeDone = false) (d : Bytes) (e : GoError)
    (rest : List ReadResult) (hs : s.stdin = ⟨d, some e⟩ :: rest) :
    writeDataIter s = { s with
      stdout := s.stdout ++ [ConsoleEvent.prompt], stdin := rest,
      log := s.log ++ [e], writeDone := true } := by
  simp [writeDataIter, hd, hs, consoleRead]

theorem writeDataIter_closed (s : Session) (hd : s.writeDone = false) (hs : s.stdin = []) :
    writeDataIter s = { s with
      stdout := s.stdout ++ [ConsoleEvent.prompt],
      log := s.log ++ [GoError.eof], writeDone := true } := by
  obtain ⟨netIn, netOut, wbuf, stdin, stdout, log, readDone, writeDone⟩ := s
  simp only at hd hs
  subst hd hs
  simp [writeDataIter, consoleRead]

/-- With more fuel than console results `writeData` returns at the first read error, having
put on the stream each line read before it, followed by one more newline. -/
theorem writeData_eq (fuel : Nat) (s : Session) (hd : s.writeDone = false) (hb : s.wbuf = [])
    (hf : s.stdin.length < fuel) :
    writeData fuel s = some { s with
      stdin := afterError s.stdin,
      stdout := s.stdout ++ List.replicate ((linesRead s.stdin).length + 1) ConsoleEvent.prompt,
      netOut := s.netOut ++ framed (linesRead s.stdin),
      wbuf := [],
      log := s.log ++ [firstError s.stdin],
      writeDone := true } := by
  induction fuel generalizing s with
  | zero => omega
  | succ n ih =>
    cases hs : s.stdin with
    | nil =>
      rw [writeData, writeDataIter_closed s hd hs]
      simp [hs, hb, linesRead, firstError, afterError, framed]
    | cons r rs =>
      obtain ⟨d, err⟩ := r
      cases err with
      | some e =>
        rw [writeData, writeDataIter_err s hd d e rs hs]
        simp [hs, hb, linesRead, firstError, afterError, framed]
      | none =>
        rw [writeData, writeDataIter_ok s hd d rs hs]
        simp only [hd]
        rw [hs] at hf
        rw [ih _ rfl rfl (by simpa using hf)]
        simp [hb, linesRead, firstError, afterError, framed, List.replicate_succ]

/-- After `k` iterations, `k` at most the number of lines read before the first error, the
first `k` lines are on the stream, the write buffer is empty, and the loop is running. -/
theorem writeDataIter_iterate (k : Nat) (s : Session) (hd : s.writeDone = false)
    (hb : s.wbuf = []) (hk : k ≤ (linesRead s.stdin).length) :
    Nat.iterate writeDataIter k s = { s with
      stdin := s.stdin.drop k,
      stdout := s.stdout ++ List.replicate k ConsoleEvent.prompt,
      netOut := s.netOut ++ framed ((linesRead s.stdin).take k),
      wbuf := [] } := by
  induction k generalizing s with
  | zero =>
    obtain ⟨netIn, netOut, wbuf, stdin, stdout, log, readDone, writeDone⟩ := s
    simp only at hb
    subst hb
    simp [framed]
  | succ k ih =>
    cases hs : s.stdin with
    | nil => rw [hs] at hk; simp [linesRead] at hk
    | cons r rs =>
      obtain ⟨d, err⟩ := r
      cases err with
      | some e => rw [hs] at hk; simp [linesRead] at hk
      | none =>
        rw [hs] at hk
        simp only [linesRead, List.length_cons] at hk
        rw [Function.iterate_succ_apply, writeDataIter_ok s hd d rs hs,
          ih _ (by simpa using hd) rfl (by simpa using hk)]
        simp [hb, linesRead, framed, List.replicate_succ]

/-! ## Facts about schedules -/

theorem writeDataIter_inboundView (s : Session) :
    inboundView (writeDataIter s) = inboundView s := by
  unfold writeDataIter
  by_cases hd : s.writeDone = true
  · simp [hd]
  · cases hs : s.stdin with
    | nil => simp [hd, hs, consoleRead, inboundView, displayed, List.filterMap_append]
    | cons r rs =>
      obtain ⟨d, err⟩ := r
      cases err <;> simp [hd, hs, consoleRead, inboundView, displayed, List.filterMap_append]

theorem readDataIter_outboundView (s : Session) :
    outboundView (readDataIter s) = outboundView s := by
  unfold readDataIter
  by_cases hd : s.readDone = true
  · simp [hd]
  · by_cases h1 : (readString s.netIn).1.str = []
    · simp [hd, h1, outboundView]
    · by_cases h2 : (readString s.netIn).1.str = [nl]
      · simp [hd, h2, outboundView]
      · simp [hd, h1, h2, outboundView]

theorem readDataIter_inboundView (s t : Session) (h : inboundView s = inboundView t) :
    inboundView (readDataIter s) = inboundView (readDataIter t) := by
  have h0 := h
  simp only [inboundView, Prod.mk.injEq] at h
  obtain ⟨h1, h2, h3⟩ := h
  unfold readDataIter
  rw [← h1, ← h2]
  by_cases hd : s.readDone = true
  · simpa [hd] using h0
  · by_cases e1 : (readString s.netIn).1.str = []
    · simp [hd, e1, inboundView, h3, displayed] at h3 ⊢
      exact h3
    · by_cases e2 : (readString s.netIn).1.str = [nl]
      · simp [hd, e2, inboundView, displayed] at h3 ⊢
        exact h3
      · simp [hd, e1, e2, inboundView, displayed, List.filterMap_append] at h3 ⊢
        exact h3

theorem writeDataIter_outboundView (s t : Session) (h : outboundView s = outboundView t) :
    outboundView (writeDataIter s) = outboundView (writeDataIter t) := by
  have h0 := h
  simp only [outboundView, Prod.mk.injEq] at h
  obtain ⟨h1, h2, h3, h4, h5⟩ := h
  unfold writeDataIter
  rw [← h1, ← h2, ← h3, ← h4, ← h5]
  by_cases hd : s.writeDone = true
  · simpa [hd] using h0
  · cases hs : s.stdin with
    | nil => simp [hd, consoleRead, outboundView]
    | cons r rs =>
      obtain ⟨d, err⟩ := r
      cases err <;> simp [hd, consoleRead, outboundView]

theorem runSchedule_inboundView (σ : List Loop) (s t : Session)
    (h : inboundView s = inboundView t) :
    inboundView (runSchedule σ s)
      = inboundView (Nat.iterate readDataIter (σ.count Loop.inbound) t) := by
  induction σ generalizing s t with
  | nil => simpa [runSchedule] using h
  | cons l σ ih =>
    cases l with
    | inbound =>
      simp only [runSchedule, sessionStep, List.count_cons_self, Function.iterate_succ_apply]
      exact ih _ _ (readDataIter_inboundView s t h)
    | outbound =>
      simp only [runSchedule, sessionStep]
      rw [List.count_cons_of_ne (by decide)]
      exact ih _ _ ((writeDataIter_inboundView s).trans h)

theorem runSchedule_outboundView (σ : List Loop) (s t : Session)
    (h : outboundView s = outboundView t) :
    outboundView (runSchedule σ s)
      = outboundView (Nat.iterate writeDataIter (σ.count Loop.outbound) t) := by
  induction σ generalizing s t with
  | nil => simpa [runSchedule] using h
  | cons l σ ih =>
    cases l with
    | outbound =>
      simp only [runSchedule, sessionStep, List.count_cons_self, Function.iterate_succ_apply]
      exact ih _ _ (writeDataIter_outboundView s t h)
    | inbound =>
      simp only [runSchedule, sessionStep]
      rw [List.count_cons_of_ne (by decide)]
      exact ih _ _ ((readDataIter_outboundView s).trans h)

/-- Once `readData` has returned with fuel `fuel`, any `n ≥ fuel` iterations end in the state
it returned in. -/
theorem readData_iterate (fuel : Nat) (s s' : Session) (h : readData fuel s = some s')
    (n : Nat) (hn : fuel ≤ n) : Nat.iterate readDataIter n s = s' := by
  induction fuel generalizing s n with
  | zero => simp [readData] at h
  | succ f ih =>
    obtain ⟨m, rfl⟩ : ∃ m, n = m + 1 := ⟨n - 1, by omega⟩
    rw [Function.iterate_succ_apply]
    rw [readData] at h
    by_cases hd : (readDataIter s).readDone = true
    · rw [if_pos hd] at h
      cases h
      exact Function.iterate_fixed (readDataIter_done _ hd) m
    · rw [if_neg hd] at h
      exact ih _ h m (by omega)

/-- Once `writeData` has returned with fuel `fuel`, any `n ≥ fuel` iterations end in the state
it returned in. -/
theorem writeData_iterate (fuel : Nat) (s s' : Session) (h : writeData fuel s = some s')
    (n : Nat) (hn : fuel ≤ n) : Nat.iterate writeDataIter n s = s' := by
  induction fuel generalizing s n with
  | zero => simp [writeData] at h
  | succ f ih =>
    obtain ⟨m, rfl⟩ : ∃ m, n = m + 1 := ⟨n - 1, by omega⟩
    rw [Function.iterate_succ_apply]
    rw [writeData] at h
    by_cases hd : (writeDataIter s).writeDone = true
    · rw [if_pos hd] at h
      cases h
      exact Function.iterate_fixed (writeDataIter_done _ hd) m
    · rw [if_neg hd] at h
      exact ih _ h m (by omega)

/-! ## Facts about session establishment -/

section SetupFacts

variable {A I S K : Type}

theorem findPort_first (lib : Lib A I S K) (pre : List A) (la : A) (post : List A) (p : String)
    (hpre : ∀ a ∈ pre, ∃ e, lib.valueForProtocol a P_TCP = .error e)
    (hla : lib.valueForProtocol la P_TCP = .ok p) :
    findPort lib (pre ++ la :: post) = p := by
  induction pre with
  | nil => simp [findPort, hla]
  | cons a pre ih =>
    obtain ⟨e, he⟩ := hpre a (by simp)
    simp only [List.cons_append, findPort, he]
    exact ih fun a ha => hpre a (by simp [ha])

theorem findPort_none (lib : Lib A I S K) (las : List A)
    (h : ∀ a ∈ las, ∃ e, lib.valueForProtocol a P_TCP = .error e) : findPort lib las = "" := by
  induction las with
  | nil => rfl
  | cons a las ih =>
    obtain ⟨e, he⟩ := h a (by simp)
    simp only [findPort, he]
    exact ih fun a ha => h a (by simp [ha])

theorem findPort_empty (lib : Lib A I S K) (las : List A)
    (hne : ∀ a ∈ las, lib.valueForProtocol a P_TCP ≠ .ok "") (h : findPort lib las = "") :
    ∀ a ∈ las, ∃ e, lib.valueForProtocol a P_TCP = .error e := by
  induction las with
  | nil => simp
  | cons a las ih =>
    cases hv : lib.valueForProtocol a P_TCP with
    | ok p =>
      simp only [findPort, hv] at h
      subst h
      exact absurd hv (hne a (by simp))
    | error e =>
      simp only [findPort, hv] at h
      intro b hb
      rcases List.mem_cons.1 hb with rfl | hb
      · exact ⟨e, hv⟩
      · exact ih (fun a ha => hne a (by simp [ha])) h b hb

theorem startPeerAndConnect_fails (lib : Lib A I S K) (h : Host A I) (destination : String)
    (err : GoError) (hf : ConnectFails lib h destination err) :
    (startPeerAndConnect lib h destination).err = some err
      ∧ (startPeerAndConnect lib h destination).rw = none := by
  rcases hf with h1 | ⟨m, h1, h2⟩ | ⟨m, info, h1, h2, h3⟩
  · simp [startPeerAndConnect, h1]
  · simp [startPeerAndConnect, h1, h2]
  · simp [startPeerAndConnect, h1, h2, h3]

end SetupFacts

/-! ## Session establishment: the claims -/

section SetupClaims

variable {A I S K : Type}

/-- C3: when the destination does not parse, or parses but holds no peer identifier,
`startPeerAndConnect` returns that error and no stream wrapper, leaves the host as it was (the
address book unchanged, no stream asked for) and logs the error. -/
theorem startPeerAndConnect_resolve_error (lib : Lib A I S K) (h : Host A I)
    (destination : String) (err : GoError)
    (hf : lib.newMultiaddr destination = .error err
      ∨ ∃ maddr, lib.newMultiaddr destination = .ok maddr
          ∧ lib.addrInfoFromP2pAddr maddr = .error err) :
    (startPeerAndConnect lib h destination).err = some err
      ∧ (startPeerAndConnect lib h destination).rw = none
      ∧ (startPeerAndConnect lib h destination).host = h
      ∧ (startPeerAndConnect lib h destination).host.peerstore = h.peerstore
      ∧ (startPeerAndConnect lib h destination).host.dials = h.dials
      ∧ (startPeerAndConnect lib h destination).log
          = [LogLine.ownAddrsHeader] ++ h.addrs.map LogLine.ownAddr ++ [LogLine.blank]
            ++ [LogLine.error err] := by
  rcases hf with h1 | ⟨m, h1, h2⟩
  · simp [startPeerAndConnect, h1]
  · simp [startPeerAndConnect, h1, h2]

theorem startPeerAndConnect_resolve_error_witness :
    (startPeerAndConnect (demoLib none [] none) (demoHost []) "chat with me").err
        = some (GoError.other 2)
      ∧ (startPeerAndConnect (demoLib none [] none) (demoHost []) "chat with me").host
        = demoHost []
      ∧ (startPeerAndConnect (demoLib none [] none) (demoHost []) "/ip4/127.0.0.1/tcp/9001").err
        = some (GoError.other 4)
      ∧ (startPeerAndConnect (demoLib none [] none) (demoHost []) "/ip4/127.0.0.1/tcp/9001").host
        = demoHost [] :=
  have p := startPeerAndConnect_resolve_error (demoLib none [] none) (demoHost [])
    "chat with me" (GoError.other 2) (Or.inl rfl)
  have q := startPeerAndConnect_resolve_error (demoLib none [] none) (demoHost [])
    "/ip4/127.0.0.1/tcp/9001" (GoError.other 4)
    (Or.inr ⟨[(4, "127.0.0.1"), (6, "9001")], rfl, rfl⟩)
  ⟨p.1, p.2.2.1, q.1, q.2.2.1⟩

/-- C5: in `startPeer`, given that a TCP port value is never the empty text, the port in the
connection instructions is the TCP value of the first listen address that has one, and the
no-listen-port line is logged, without instructions, exactly when no listen address has one. -/
theorem startPeer_port_discovery (lib : Lib A I S K) (h : Host A I)
    (hne : ∀ la ∈ h.listenAddrs, lib.valueForProtocol la P_TCP ≠ .ok "") :
    (∀ pre la post p, h.listenAddrs = pre ++ la :: post
        → (∀ a ∈ pre, ∃ e, lib.valueForProtocol a P_TCP = .error e)
        → lib.valueForProtocol la P_TCP = .ok p
        → (startPeer lib h).2 = [LogLine.runInstructions p h.id, LogLine.publicAddressHint,
            LogLine.waiting, LogLine.blank])
      ∧ ((startPeer lib h).2 = [LogLine.noListenPort]
          ↔ ∀ la ∈ h.listenAddrs, ∃ e, lib.valueForProtocol la P_TCP = .error e)
      ∧ (LogLine.noListenPort ∈ (startPeer lib h).2
          ↔ ∀ la ∈ h.listenAddrs, ∃ e, lib.valueForProtocol la P_TCP = .error e)
      ∧ (startPeer lib h).1 = { h with handlers := h.handlers ++ [chatProtocol] } := by
  refine ⟨?_, ?_, ?_, by
    by_cases hp : findPort lib h.listenAddrs = "" <;> simp [startPeer, hp]⟩
  · intro pre la post p hs hpre hla
    have hp : p ≠ "" := by
      intro e
      subst e
      exact hne la (by simp [hs]) hla
    have hf : findPort lib h.listenAddrs = p := by
      rw [hs]; exact findPort_first lib pre la post p hpre hla
    simp [startPeer, hf, hp]
  · constructor
    · intro hl
      by_cases hp : findPort lib h.listenAddrs = ""
      · exact findPort_empty lib _ hne hp
      · simp [startPeer, hp] at hl
    · intro hall
      simp [startPeer, findPort_none lib _ hall]
  · constructor
    · intro hl
      by_cases hp : findPort lib h.listenAddrs = ""
      · exact findPort_empty lib _ hne hp
      · simp [startPeer, hp] at hl
    · intro hall
      simp [startPeer, findPort_none lib _ hall]

theorem startPeer_port_discovery_witness :
    (startPeer (demoLib none [[(4, "0.0.0.0")], [(4, "0.0.0.0"), (6, "9001")],
        [(4, "10.0.0.1"), (6, "9002")]] none)
      (demoHost [[(4, "0.0.0.0")], [(4, "0.0.0.0"), (6, "9001")],
        [(4, "10.0.0.1"), (6, "9002")]])).2
      = [LogLine.runInstructions "9001" 7, LogLine.publicAddressHint, LogLine.waiting,
          LogLine.blank] :=
  (startPeer_port_discovery
    (demoLib none [[(4, "0.0.0.0")], [(4, "0.0.0.0"), (6, "9001")],
      [(4, "10.0.0.1"), (6, "9002")]] none)
    (demoHost [[(4, "0.0.0.0")], [(4, "0.0.0.0"), (6, "9001")], [(4, "10.0.0.1"), (6, "9002")]])
    (by
      intro la hla
      simp only [demoHost, List.mem_cons, List.mem_singleton, List.not_mem_nil, or_false] at hla
      rcases hla with rfl | rfl | rfl <;> simp [demoLib, P_TCP])).1
    [[(4, "0.0.0.0")]] [(4, "0.0.0.0"), (6, "9001")] [[(4, "10.0.0.1"), (6, "9002")]] "9001"
    rfl
    (by
      intro a ha
      rw [List.mem_singleton] at ha
      subst ha
      exact ⟨GoError.other 3, rfl⟩)
    rfl

/-- C9: `startPeerAndConnect` parses the destination, extracts the peer, and asks for a stream
to that peer under "/chat/1.0.0" on the host with the peer registered. It returns a stream
wrapper and no error exactly when the three steps succeed, else no stream and the error of the
first step that failed; it never returns both, nor neither. -/
theorem startPeerAndConnect_result (lib : Lib A I S K) (h : Host A I) (destination : String) :
    ((∃ s, (startPeerAndConnect lib h destination).rw = some s
          ∧ (startPeerAndConnect lib h destination).err = none)
        ↔ ∃ maddr info s, lib.newMultiaddr destination = .ok maddr
            ∧ lib.addrInfoFromP2pAddr maddr = .ok info
            ∧ lib.newStream { h with
                peerstore := h.peerstore ++ [⟨info.id, info.addrs, TTL.permanentAddrTTL⟩] }
                info.id chatProtocol = .ok s)
      ∧ ((startPeerAndConnect lib h destination).rw = none
          ↔ (startPeerAndConnect lib h destination).err ≠ none)
      ∧ (∀ err, ConnectFails lib h destination err →
          (startPeerAndConnect lib h destination).err = some err
            ∧ (startPeerAndConnect lib h destination).rw = none)
      ∧ (∀ maddr info, lib.newMultiaddr destination = .ok maddr
          → lib.addrInfoFromP2pAddr maddr = .ok info
          → (startPeerAndConnect lib h destination).host.dials
              = h.dials ++ [(info.id, "/chat/1.0.0")]
            ∧ ∀ s, lib.newStream { h with
                peerstore := h.peerstore ++ [⟨info.id, info.addrs, TTL.permanentAddrTTL⟩] }
                info.id "/chat/1.0.0" = .ok s
              → (startPeerAndConnect lib h destination).rw = some s
                ∧ (startPeerAndConnect lib h destination).err = none)
      ∧ ((startPeerAndConnect lib h destination).err = none
          ∨ ∃ err, ConnectFails lib h destination err) := by
  refine ⟨?_, ?_, fun err hf => startPeerAndConnect_fails lib h destination err hf, ?_, ?_⟩
  · cases h1 : lib.newMultiaddr destination with
    | error e => simp [startPeerAndConnect, h1]
    | ok m =>
      cases h2 : lib.addrInfoFromP2pAddr m with
      | error e => simp [startPeerAndConnect, h1, h2]
      | ok info =>
        cases h3 : lib.newStream { h with
            peerstore := h.peerstore ++ [⟨info.id, info.addrs, TTL.permanentAddrTTL⟩] }
            info.id chatProtocol with
        | error e => simp [startPeerAndConnect, h1, h2, h3]
        | ok s => simp [startPeerAndConnect, h1, h2, h3]
  · cases h1 : lib.newMultiaddr destination with
    | error e => simp [startPeerAndConnect, h1]
    | ok m =>
      cases h2 : lib.addrInfoFromP2pAddr m with
      | error e => simp [startPeerAndConnect, h1, h2]
      | ok info =>
        cases h3 : lib.newStream { h with
            peerstore := h.peerstore ++ [⟨info.id, info.addrs, TTL.permanentAddrTTL⟩] }
            info.id chatProtocol with
        | error e => simp [startPeerAndConnect, h1, h2, h3]
        | ok s => simp [startPeerAndConnect, h1, h2, h3]
  · intro m info h1 h2
    constructor
    · cases h3 : lib.newStream { h with
          peerstore := h.peerstore ++ [⟨info.id, info.addrs, TTL.permanentAddrTTL⟩] }
          info.id "/chat/1.0.0" with
      | error e => simp [startPeerAndConnect, h1, h2, h3, chatProtocol]
      | ok s => simp [startPeerAndConnect, h1, h2, h3, chatProtocol]
    · intro s h3
      simp [startPeerAndConnect, h1, h2, h3, chatProtocol]
  · cases h1 : lib.newMultiaddr destination with
    | error e => exact Or.inr ⟨e, Or.inl h1⟩
    | ok m =>
      cases h2 : lib.addrInfoFromP2pAddr m with
      | error e => exact Or.inr ⟨e, Or.inr (Or.inl ⟨m, h1, h2⟩)⟩
      | ok info =>
        cases h3 : lib.newStream { h with
            peerstore := h.peerstore ++ [⟨info.id, info.addrs, TTL.permanentAddrTTL⟩] }
            info.id chatProtocol with
        | error e => exact Or.inr ⟨e, Or.inr (Or.inr ⟨m, info, h1, h2, h3⟩)⟩
        | ok s => left; simp [startPeerAndConnect, h1, h2, h3]

theorem startPeerAndConnect_result_witness :
    (startPeerAndConnect (demoLib none [] none) (demoHost [])
        "/ip4/127.0.0.1/tcp/9001/p2p/42").rw = some 5
      ∧ (startPeerAndConnect (demoLib none [] none) (demoHost [])
        "/ip4/127.0.0.1/tcp/9001/p2p/42").err = none
      ∧ (startPeerAndConnect (demoLib none [] (some (GoError.other 9))) (demoHost [])
        "/ip4/127.0.0.1/tcp/9001/p2p/42").err = some (GoError.other 9) :=
  have p := ((startPeerAndConnect_result (demoLib none [] none) (demoHost [])
    "/ip4/127.0.0.1/tcp/9001/p2p/42").2.2.2.1
      [(4, "127.0.0.1"), (6, "9001"), (421, "42")]
      { id := 42, addrs := [[(4, "127.0.0.1"), (6, "9001")]] } rfl rfl).2 5 rfl
  have q := (startPeerAndConnect_result (demoLib none [] (some (GoError.other 9))) (demoHost [])
    "/ip4/127.0.0.1/tcp/9001/p2p/42").2.2.1 (GoError.other 9)
      (Or.inr (Or.inr ⟨[(4, "127.0.0.1"), (6, "9001"), (421, "42")],
        { id := 42, addrs := [[(4, "127.0.0.1"), (6, "9001")]] }, rfl, rfl, rfl⟩))
  ⟨p.1, p.2, q.1⟩

/-- C10: the registration in the address book is made, with the permanent retention hint,
exactly when the parse and the extraction of the peer succeed, and it stays when the dial then
fails: the call returns the dial error and no stream, and the address book holds the
registration. -/
theorem startPeerAndConnect_registration_kept (lib : Lib A I S K) (h : Host A I)
    (destination : String) :
    (∀ maddr info, lib.newMultiaddr destination = .ok maddr
        → lib.addrInfoFromP2pAddr maddr = .ok info
        → (startPeerAndConnect lib h destination).host.peerstore
            = h.peerstore ++ [⟨info.id, info.addrs, TTL.permanentAddrTTL⟩]
          ∧ ∀ err, lib.newStream { h with
                peerstore := h.peerstore ++ [⟨info.id, info.addrs, TTL.permanentAddrTTL⟩] }
                info.id chatProtocol = .error err
              → (startPeerAndConnect lib h destination).err = some err
                ∧ (startPeerAndConnect lib h destination).rw = none
                ∧ (⟨info.id, info.addrs, TTL.permanentAddrTTL⟩ : Registration A I)
                    ∈ (startPeerAndConnect lib h destination).host.peerstore)
      ∧ ((∀ maddr info, ¬ (lib.newMultiaddr destination = .ok maddr
            ∧ lib.addrInfoFromP2pAddr maddr = .ok info))
          → (startPeerAndConnect lib h destination).host.peerstore = h.peerstore) := by
  constructor
  · intro m info h1 h2
    constructor
    · cases h3 : lib.newStream { h with
          peerstore := h.peerstore ++ [⟨info.id, info.addrs, TTL.permanentAddrTTL⟩] }
          info.id chatProtocol with
      | error e => simp [startPeerAndConnect, h1, h2, h3]
      | ok s => simp [startPeerAndConnect, h1, h2, h3]
    · intro err h3
      simp [startPeerAndConnect, h1, h2, h3]
  · intro hno
    cases h1 : lib.newMultiaddr destination with
    | error e => simp [startPeerAndConnect, h1]
    | ok m =>
      cases h2 : lib.addrInfoFromP2pAddr m with
      | error e => simp [startPeerAndConnect, h1, h2]
      | ok info => exact absurd ⟨h1, h2⟩ (hno m info)

theorem startPeerAndConnect_registration_kept_witness :
    (startPeerAndConnect (demoLib none [] (some (GoError.other 9))) (demoHost [])
        "/ip4/127.0.0.1/tcp/9001/p2p/42").err = some (GoError.other 9)
      ∧ (startPeerAndConnect (demoLib none [] (some (GoError.other 9))) (demoHost [])
        "/ip4/127.0.0.1/tcp/9001/p2p/42").rw = none
      ∧ (⟨42, [[(4, "127.0.0.1"), (6, "9001")]], TTL.permanentAddrTTL⟩ : Registration DemoAddr Nat)
        ∈ (startPeerAndConnect (demoLib none [] (some (GoError.other 9))) (demoHost [])
            "/ip4/127.0.0.1/tcp/9001/p2p/42").host.peerstore :=
  ((startPeerAndConnect_registration_kept (demoLib none [] (some (GoError.other 9)))
    (demoHost []) "/ip4/127.0.0.1/tcp/9001/p2p/42").1
      [(4, "127.0.0.1"), (6, "9001"), (421, "42")]
      { id := 42, addrs := [[(4, "127.0.0.1"), (6, "9001")]] } rfl rfl).2
      (GoError.other 9) rfl

/-- C4 (counterexample): with no listen address exposing a TCP port `startPeer` logs
the no-listen-port line, and `main` does not return: it goes on to wait forever, with the
stream handler set. -/
theorem main_waits_after_no_listen_port :
    findPort (demoLib none [] none) (demoHost []).listenAddrs = ""
      ∧ (main (demoLib none [] none) ⟨0, "", false, false⟩).log = [LogLine.noListenPort]
      ∧ (main (demoLib none [] none) ⟨0, "", false, false⟩).ending = Ending.waitForever
      ∧ (main (demoLib none [] none) ⟨0, "", false, false⟩).ending ≠ Ending.returned
      ∧ (main (demoLib none [] none) ⟨0, "", false, false⟩).host.map (fun h => h.handlers)
          = some ["/chat/1.0.0"] := by
  refine ⟨rfl, rfl, rfl, by decide, rfl⟩

/-- C4 (amended): a failure of identity generation, of host creation, of address resolution or
of the dial is terminal; `main` logs the error and returns, having started no messaging loop,
and at most one dial was made. A failure of listen-port discovery is logged by `startPeer`
without connection instructions, and `main` then waits forever with the stream handler set and
no messaging loop started. -/
theorem main_setup_errors (lib : Lib A I S K) (flags : Flags) (hh : flags.help = false) :
    (∀ err,
        lib.generateKeyPair (if flags.debug then Rand.seeded flags.sourcePort else Rand.secure)
          = .error err
        → (main lib flags).ending = Ending.returned ∧ (main lib flags).loops = []
          ∧ (main lib flags).log = [LogLine.error err, LogLine.error err]
          ∧ (main lib flags).host = none)
      ∧ (∀ key err,
        lib.generateKeyPair (if flags.debug then Rand.seeded flags.sourcePort else Rand.secure)
          = .ok key
        → lib.new (lib.newMultiaddr (listenText flags.sourcePort)).toOption key = .error err
        → (main lib flags).ending = Ending.returned ∧ (main lib flags).loops = []
          ∧ (main lib flags).log = [LogLine.error err]
          ∧ (main lib flags).host = none)
      ∧ (∀ key h err,
        lib.generateKeyPair (if flags.debug then Rand.seeded flags.sourcePort else Rand.secure)
          = .ok key
        → lib.new (lib.newMultiaddr (listenText flags.sourcePort)).toOption key = .ok h
        → flags.dest ≠ ""
        → ConnectFails lib h flags.dest err
        → (main lib flags).ending = Ending.returned ∧ (main lib flags).loops = []
          ∧ (main lib flags).log
              = (startPeerAndConnect lib h flags.dest).log ++ [LogLine.error err]
          ∧ (main lib flags).host = some (startPeerAndConnect lib h flags.dest).host
          ∧ (startPeerAndConnect lib h flags.dest).host.dials.length ≤ h.dials.length + 1)
      ∧ (∀ key h,
        lib.generateKeyPair (if flags.debug then Rand.seeded flags.sourcePort else Rand.secure)
          = .ok key
        → lib.new (lib.newMultiaddr (listenText flags.sourcePort)).toOption key = .ok h
        → flags.dest = ""
        → (∀ la ∈ h.listenAddrs, ∃ e, lib.valueForProtocol la P_TCP = .error e)
        → (main lib flags).ending = Ending.waitForever ∧ (main lib flags).loops = []
          ∧ (main lib flags).log = [LogLine.noListenPort]
          ∧ (main lib flags).host
              = some { h with handlers := h.handlers ++ [chatProtocol] }) := by
  refine ⟨?_, ?_, ?_, ?_⟩
  · intro err h1
    simp [main, hh, makeHost, h1]
  · intro key err h1 h2
    simp [main, hh, makeHost, h1, h2]
  · intro key h err h1 h2 hd hf
    have hc := startPeerAndConnect_fails lib h flags.dest err hf
    refine ⟨?_, ?_, ?_, ?_, ?_⟩
    · simp [main, hh, makeHost, h1, h2, hd, hc.1]
    · simp [main, hh, makeHost, h1, h2, hd, hc.1]
    · simp [main, hh, makeHost, h1, h2, hd, hc.1]
    · simp [main, hh, makeHost, h1, h2, hd, hc.1]
    · rcases hf with e1 | ⟨m, e1, e2⟩ | ⟨m, info, e1, e2, e3⟩
      · simp [startPeerAndConnect, e1]
      · simp [startPeerAndConnect, e1, e2]
      · simp [startPeerAndConnect, e1, e2, e3]
  · intro key h h1 h2 hd hall
    have hp := findPort_none lib h.listenAddrs hall
    simp [main, hh, makeHost, h1, h2, hd, startPeer, hp]

theorem main_setup_errors_witness :
    (main (demoLib (some (GoError.other 1)) [] none) ⟨9001, "", false, true⟩).ending
        = Ending.returned
      ∧ (main (demoLib none [] (some (GoError.other 9)))
          ⟨0, "/ip4/127.0.0.1/tcp/9001/p2p/42", false, false⟩).ending = Ending.returned
      ∧ (main (demoLib none [] (some (GoError.other 9)))
          ⟨0, "/ip4/127.0.0.1/tcp/9001/p2p/42", false, false⟩).loops = []
      ∧ (main (demoLib none [] none) ⟨0, "", false, false⟩).ending = Ending.waitForever :=
  have p := (main_setup_errors (demoLib (some (GoError.other 1)) [] none)
    ⟨9001, "", false, true⟩ rfl).1 (GoError.other 1) rfl
  have q := (main_setup_errors (demoLib none [] (some (GoError.other 9)))
    ⟨0, "/ip4/127.0.0.1/tcp/9001/p2p/42", false, false⟩ rfl).2.2.1 1 (demoHost [])
    (GoError.other 9) rfl rfl (by decide)
    (Or.inr (Or.inr ⟨[(4, "127.0.0.1"), (6, "9001"), (421, "42")],
      { id := 42, addrs := [[(4, "127.0.0.1"), (6, "9001")]] }, rfl, rfl, rfl⟩))
  have r := (main_setup_errors (demoLib none [] none) ⟨0, "", false, false⟩ rfl).2.2.2 1
    (demoHost []) rfl rfl rfl (by intro la hla; cases hla)
  ⟨p.1, q.1, q.2.1, r.1⟩

end SetupClaims

/-! ## Duplex messaging: the claims -/

theorem filter_interleaved (ls : List Bytes) :
    ((ls.map fun l => [l, [nl]]).flatten).filter (fun m => decide (m ≠ [nl]))
      = ls.filter (fun m => decide (m ≠ [nl])) := by
  induction ls with
  | nil => rfl
  | cons l ls ih =>
    simp only [List.map_cons, List.flatten_cons, List.filter_append, ih]
    by_cases h : l = [nl]
    · simp [List.filter_cons, h]
    · simp [List.filter_cons, h]

theorem linesRead_map (ls : List Bytes) :
    linesRead (ls.map fun l => (⟨l, none⟩ : ReadResult)) = ls := by
  induction ls with
  | nil => rfl
  | cons l ls ih => simp [linesRead, ih]

theorem console_split (c : List ReadResult) :
    (c = (linesRead c).map (fun l => (⟨l, none⟩ : ReadResult))
        ∧ firstError c = GoError.eof ∧ afterError c = [])
      ∨ ∃ d, c = (linesRead c).map (fun l => (⟨l, none⟩ : ReadResult))
          ++ ⟨d, some (firstError c)⟩ :: afterError c := by
  induction c with
  | nil => left; simp [linesRead, firstError, afterError]
  | cons r rs ih =>
    obtain ⟨d, err⟩ := r
    cases err with
    | some e => right; exact ⟨d, by simp [linesRead, firstError, afterError]⟩
    | none =>
      rcases ih with ⟨h1, h2, h3⟩ | ⟨d', h⟩
      · left
        refine ⟨?_, by simpa [firstError] using h2, by simpa [afterError] using h3⟩
        simp only [linesRead, List.map_cons]
        rw [← h1]
      · right
        refine ⟨d', ?_⟩
        simp only [linesRead, firstError, afterError, List.map_cons, List.cons_append]
        rw [← h]

/-- C1 (counterexample): an empty console line is a line, `writeData` sends it, and the
peer's `readData` displays nothing: the line is lost. -/
theorem delivered_loses_empty_line :
    IsLine [nl] ∧ delivered [[nl]] [] [] = some [] ∧ delivered [[nl]] [] [] ≠ some [[nl]] := by
  refine ⟨⟨[], by simp, rfl⟩, by decide, by decide⟩

/-- C1 (amended): when `writeData` sends the console lines `ls` and the peer's `readData` reads
the bytes so produced, the messages displayed are the lines of `ls` that are not a bare newline,
in order, each once and intact; when no line is a bare newline they are `ls`. -/
theorem delivered_lines_except_bare (ls : List Bytes) (hl : ∀ l ∈ ls, IsLine l)
    (inboundA : Bytes) (consoleB : List ReadResult) :
    delivered ls inboundA consoleB = some (ls.filter fun l => decide (l ≠ [nl]))
      ∧ ((∀ l ∈ ls, l ≠ [nl]) → delivered ls inboundA consoleB = some ls) := by
  have hw := writeData_eq (ls.length + 1)
    (Session.fresh inboundA (ls.map fun l => ⟨l, none⟩)) rfl rfl (by simp [Session.fresh])
  have hr := readData_eq ((framed ls).length + 1) (Session.fresh (framed ls) consoleB) rfl
    (by simp [Session.fresh])
  have hd : delivered ls inboundA consoleB = some (ls.filter fun l => decide (l ≠ [nl])) := by
    unfold delivered
    rw [hw]
    simp only [Session.fresh, linesRead_map, List.nil_append] at hr ⊢
    rw [hr]
    simp only [displayed, List.nil_append]
    rw [messages_framed_lines ls hl, filter_interleaved]
    have := displayed_append_messages [] (ls.filter fun l => decide (l ≠ [nl]))
    simpa using this
  refine ⟨hd, fun hb => ?_⟩
  rw [hd]
  congr 1
  exact List.filter_eq_self.2 fun l hl' => by simpa using hb l hl'

theorem delivered_lines_except_bare_witness :
    delivered [['h', 'e', 'l', 'l', 'o', nl], ['h', 'i', nl]] [] []
      = some [['h', 'e', 'l', 'l', 'o', nl], ['h', 'i', nl]] :=
  (delivered_lines_except_bare [['h', 'e', 'l', 'l', 'o', nl], ['h', 'i', nl]]
    (by
      intro l hl
      simp only [List.mem_cons, List.mem_singleton, List.not_mem_nil, or_false] at hl
      rcases hl with rfl | rfl
      · exact ⟨['h', 'e', 'l', 'l', 'o'], by decide, rfl⟩
      · exact ⟨['h', 'i'], by decide, rfl⟩)
    [] []).2 (by decide)

/-- C2: a read that returns exactly a bare newline writes nothing to the console and does not
end the loop; the state `readData` returns in on a stream is the one it returns in on the
stream with every bare-newline Message removed, and none of the messages it writes is a bare
newline. -/
theorem readData_bare_newline_not_surfaced (s : Session) (hd : s.readDone = false) :
    ((readString s.netIn).1.str = [nl] →
        (readDataIter s).stdout = s.stdout ∧ (readDataIter s).readDone = false
          ∧ (readDataIter s).netIn = (readString s.netIn).2)
      ∧ (∃ s', readData (s.netIn.length + 1) s = some s'
          ∧ readData ((dropBare s.netIn).length + 1) { s with netIn := dropBare s.netIn }
              = some s'
          ∧ ConsoleEvent.message [nl] ∉ s'.stdout.drop s.stdout.length)
      ∧ messages (dropBare s.netIn)
          = (messages s.netIn).filter (fun m => decide (m ≠ [nl]))
      ∧ dropBare s.netIn = ((messages s.netIn).filter (fun m => decide (m ≠ [nl]))).flatten := by
  refine ⟨?_, ?_, messages_dropBare _, rfl⟩
  · intro hb
    rw [readDataIter_bare s hd hb]
    exact ⟨rfl, hd, rfl⟩
  · refine ⟨_, readData_eq _ s hd (Nat.lt_succ_self _), ?_, ?_⟩
    · rw [readData_eq _ { s with netIn := dropBare s.netIn } hd (Nat.lt_succ_self _)]
      simp only [messages_dropBare, List.filter_filter, Bool.and_self]
    · simp only [List.drop_left]
      intro hm
      rcases List.mem_map.1 hm with ⟨m, hm1, hm2⟩
      cases hm2
      simp at hm1

theorem readData_bare_newline_not_surfaced_witness :
    (readDataIter (Session.fresh [nl, 'h', 'i', nl] [])).stdout = []
      ∧ (readDataIter (Session.fresh [nl, 'h', 'i', nl] [])).readDone = false
      ∧ (readDataIter (Session.fresh [nl, 'h', 'i', nl] [])).netIn = ['h', 'i', nl] :=
  (readData_bare_newline_not_surfaced (Session.fresh [nl, 'h', 'i', nl] []) rfl).1 (by decide)

/-- C7: `writeData`, started with an empty write buffer, returns at the first console-read
error; by then the stream holds each line read before that error followed by one more newline,
in console order, and nothing else; the error is logged, the results after it stay unread, and
further iterations change nothing. After each iteration the write buffer is empty: a line is
flushed before the next is read. -/
theorem writeData_sends_lines (s : Session) (hd : s.writeDone = false) (hb : s.wbuf = []) :
    (∀ fuel, s.stdin.length < fuel →
        writeData fuel s = some { s with
          stdin := afterError s.stdin,
          stdout := s.stdout
            ++ List.replicate ((linesRead s.stdin).length + 1) ConsoleEvent.prompt,
          netOut := s.netOut ++ ((linesRead s.stdin).map fun l => l ++ [nl]).flatten,
          wbuf := [],
          log := s.log ++ [firstError s.stdin],
          writeDone := true })
      ∧ (∀ k, k ≤ (linesRead s.stdin).length →
        Nat.iterate writeDataIter k s = { s with
          stdin := s.stdin.drop k,
          stdout := s.stdout ++ List.replicate k ConsoleEvent.prompt,
          netOut := s.netOut ++ (((linesRead s.stdin).take k).map fun l => l ++ [nl]).flatten,
          wbuf := [] })
      ∧ ((s.stdin = (linesRead s.stdin).map (fun l => (⟨l, none⟩ : ReadResult))
            ∧ firstError s.stdin = GoError.eof ∧ afterError s.stdin = [])
          ∨ ∃ d, s.stdin = (linesRead s.stdin).map (fun l => (⟨l, none⟩ : ReadResult))
              ++ ⟨d, some (firstError s.stdin)⟩ :: afterError s.stdin)
      ∧ (∀ t : Session, t.writeDone = true → writeDataIter t = t) :=
  ⟨fun fuel hf => writeData_eq fuel s hd hb hf,
    fun k hk => writeDataIter_iterate k s hd hb hk,
    console_split s.stdin,
    fun t ht => writeDataIter_done t ht⟩

theorem writeData_sends_lines_witness :
    writeData 4 (Session.fresh [] [⟨['h', 'i', nl], none⟩, ⟨['y', 'o'], some GoError.eof⟩,
        ⟨['n', 'o', nl], none⟩])
      = some { netIn := [], netOut := ['h', 'i', nl, nl], wbuf := [],
               stdin := [⟨['n', 'o', nl], none⟩],
               stdout := [ConsoleEvent.prompt, ConsoleEvent.prompt],
               log := [GoError.eof], readDone := false, writeDone := true } :=
  (writeData_sends_lines (Session.fresh [] [⟨['h', 'i', nl], none⟩,
    ⟨['y', 'o'], some GoError.eof⟩, ⟨['n', 'o', nl], none⟩]) rfl rfl).1 4 (by decide)

/-- C8 (counterexample): on the stream content "hi\nok" the second read returns "ok", which is
not newline-terminated, and `readData` displays it. -/
theorem readData_displays_unterminated_remainder :
    messages ['h', 'i', nl, 'o', 'k'] = [['h', 'i', nl], ['o', 'k']]
      ∧ ¬ IsLine ['o', 'k']
      ∧ (readData 6 (Session.fresh ['h', 'i', nl, 'o', 'k'] [])).map displayed
          = some [['h', 'i', nl], ['o', 'k']] := by
  refine ⟨by decide, ?_, by decide⟩
  rintro ⟨t, _, h⟩
  have h2 : (['o', 'k'] : Bytes).getLast? = some nl := by rw [h]; simp
  exact absurd h2 (by decide)

/-- C8 (amended): `readData`, given more fuel than the stream has bytes, returns, at the first
empty read; by then it has consumed the stream and written, in stream order and verbatim between
the colour bytes and the reset-and-prompt bytes, every read that is not a bare newline, and
nothing else; further iterations change nothing. The reads concatenate to the stream, and each
is a newline-terminated line, or is the last one, not empty and without a newline: the
unterminated remainder before end-of-file. -/
theorem readData_displays_messages (s : Session) (hd : s.readDone = false) (fuel : Nat)
    (hf : s.netIn.length < fuel) :
    ∃ s', readData fuel s = some s'
      ∧ s'.readDone = true ∧ readDataIter s' = s'
      ∧ s'.netIn = []
      ∧ s'.stdout = s.stdout
          ++ ((messages s.netIn).filter (fun m => decide (m ≠ [nl]))).map ConsoleEvent.message
      ∧ displayed s' = displayed s ++ (messages s.netIn).filter (fun m => decide (m ≠ [nl]))
      ∧ outboundView s' = outboundView s
      ∧ (messages s.netIn).flatten = s.netIn
      ∧ (∀ m ∈ messages s.netIn,
          IsLine m ∨ (nl ∉ m ∧ m ≠ [] ∧ (messages s.netIn).getLast? = some m))
      ∧ (∀ m, (ConsoleEvent.message m).render = green ++ m ++ resetPrompt) := by
  refine ⟨_, readData_eq fuel s hd hf, rfl, readDataIter_done _ rfl, rfl, rfl, ?_, rfl,
    messages_flatten _, messages_framed _, fun m => rfl⟩
  exact displayed_append_messages _ _

theorem readData_displays_messages_witness :
    ∃ s', readData 7 (Session.fresh ['h', 'i', nl, nl, 'o', 'k'] []) = some s'
      ∧ displayed s' = [['h', 'i', nl], ['o', 'k']] := by
  obtain ⟨s', h1, _, _, _, _, h6, _⟩ :=
    readData_displays_messages (Session.fresh ['h', 'i', nl, nl, 'o', 'k'] []) rfl 7 (by decide)
  exact ⟨s', h1, by rw [h6]; decide⟩

/-- C6: the two loops of a session do not stop each other. A console-read error ends
`writeData` and leaves the Inbound state as it was; for every schedule, whatever the console
returns and whether `writeData` has returned, the Inbound state is the one `readData` reaches
alone in as many iterations, so the messages displayed are the same. Likewise an empty read
ends `readData` and leaves the Outbound state as it was, and for every schedule the Outbound
state is the one `writeData` reaches alone. -/
theorem loops_independent (σ : List Loop) (s : Session) :
    (s.writeDone = false → (consoleRead s.stdin).1.err ≠ none →
        (writeDataIter s).writeDone = true)
      ∧ inboundView (writeDataIter s) = inboundView s
      ∧ (∀ (console : List ReadResult) (wd : Bool),
          inboundView (runSchedule σ { s with stdin := console, writeDone := wd })
            = inboundView (Nat.iterate readDataIter (σ.count Loop.inbound) s))
      ∧ (s.readDone = false → s.netIn.length < σ.count Loop.inbound →
          ∀ (console : List ReadResult) (wd : Bool),
            displayed (runSchedule σ { s with stdin := console, writeDone := wd })
              = displayed s ++ (messages s.netIn).filter (fun m => decide (m ≠ [nl])))
      ∧ (s.readDone = false → s.netIn = [] → (readDataIter s).readDone = true)
      ∧ outboundView (readDataIter s) = outboundView s
      ∧ (∀ (inbound : Bytes) (rd : Bool),
          outboundView (runSchedule σ { s with netIn := inbound, readDone := rd })
            = outboundView (Nat.iterate writeDataIter (σ.count Loop.outbound) s)) := by
  refine ⟨?_, writeDataIter_inboundView s, ?_, ?_, ?_, readDataIter_outboundView s, ?_⟩
  · intro hd he
    cases hs : s.stdin with
    | nil => rw [writeDataIter_closed s hd hs]
    | cons r rs =>
      obtain ⟨d, err⟩ := r
      cases err with
      | none => simp [hs, consoleRead] at he
      | some e => rw [writeDataIter_err s hd d e rs hs]
  · intro console wd
    exact runSchedule_inboundView σ _ s (by simp [inboundView, displayed])
  · intro hd hlen console wd
    have h1 := runSchedule_inboundView σ { s with stdin := console, writeDone := wd } s
      (by simp [inboundView, displayed])
    have h2 := readData_iterate _ s _ (readData_eq (s.netIn.length + 1) s hd
      (Nat.lt_succ_self _)) (σ.count Loop.inbound) (by omega)
    rw [h2] at h1
    have h3 := congrArg (fun v => v.2.2) h1
    simp only [inboundView] at h3
    rw [h3]
    exact displayed_append_messages _ _
  · intro hd hs
    rw [readDataIter_eof s hd hs]
  · intro inbound rd
    exact runSchedule_outboundView σ _ s (by simp [outboundView])

theorem loops_independent_witness :
    displayed (runSchedule [Loop.outbound, Loop.inbound, Loop.outbound, Loop.inbound,
        Loop.inbound, Loop.inbound, Loop.inbound]
        { Session.fresh ['h', 'i', nl, nl] [] with stdin := [], writeDone := false })
      = [['h', 'i', nl]] :=
  (loops_independent [Loop.outbound, Loop.inbound, Loop.outbound, Loop.inbound,
    Loop.inbound, Loop.inbound, Loop.inbound] (Session.fresh ['h', 'i', nl, nl] [])).2.2.2.1 rfl (by decide)
    [] false

end P2PChat
